import Mathlib

/-!
Verification of the resource-recorder script (`scripts/record.py`).

The script samples CPU %, RAM (MB) and, when a platform backend succeeds,
instantaneous Watts, once per tick, and writes a plain-text summary at the
end of a run.  This file shallowly embeds the parts of the script that the
specification's claims are about:

* `raplJoulesLinux`   embeds `_rapl_joules_linux` (the cumulative µJ reader);
* `linuxBackend`      embeds the `_linux` closure of `make_watts_reader`,
  with the closure's carried state (`last_j`, `last_t`) made explicit;
* `powermetricsWattsMac` embeds `_powermetrics_watts_mac`;
* `batteryWattsWindows`  embeds `_battery_watts_windows`;
* `tick` / `runLoop`  embed one iteration / a full run of the main
  `while running:` sampling loop;
* `fmt`, `pyStats`    embed `fmt` and `_stats` (Python `min`/`max`/
  `statistics.mean` raise on an empty sequence, so `pyStats` is `Except`);
* `summaryText`       embeds the construction of the `summary` f-string.

Numeric values are modelled with `ℚ`.  Python's `statistics.mean` computes
the exact rational mean internally, and the difference-quotient and
formatting facts proved here concern exactly representable values, so the
rational model is faithful for every statement below.  External
collaborators (the filesystem, `time.time()`, `subprocess` output, `psutil`
battery data) are modelled as explicit environment values handed to each
embedded function; exceptions raised by a collaborator and caught by the
code appear as `none`/failure constructors in the environment.
-/

/-- Python whitespace for `str.strip` / `str.split()`. -/
def pyWS (c : Char) : Bool :=
  c = ' ' || c = '\t' || c = '\n' || c = '\r' || c = '\x0b' || c = '\x0c'

/-- Characters of a digit, as produced by decimal rendering. -/
def digChar (n : Nat) : Char :=
  match n % 10 with
  | 0 => '0' | 1 => '1' | 2 => '2' | 3 => '3' | 4 => '4'
  | 5 => '5' | 6 => '6' | 7 => '7' | 8 => '8' | _ => '9'

/-- Fuel-driven decimal rendering; the fuel only bounds the recursion depth
and `natDigits` always supplies enough of it. -/
def natDigitsAux : Nat → Nat → List Char
  | 0, _ => []
  | fuel + 1, n =>
    if n < 10 then [digChar n]
    else natDigitsAux fuel (n / 10) ++ [digChar (n % 10)]

/-- Decimal digit list of a natural number (most significant first). -/
def natDigits (n : Nat) : List Char :=
  natDigitsAux (n + 1) n

/-- A character counts as numeric output: a digit, decimal point or sign. -/
def numericChar (c : Char) : Bool :=
  ('0' ≤ c && c ≤ '9') || c = '.' || c = '-'

/-- True when the string is non-empty and all characters are numeric. -/
def isNumericStr (s : String) : Bool :=
  !s.data.isEmpty && s.data.all numericChar

/-- Left-pad a digit list with zeros to width `nd` (fractional part). -/
def padZeros (nd : Nat) (l : List Char) : List Char :=
  List.replicate (nd - l.length) '0' ++ l

/-- Round to the nearest integer, ties to even — the rounding Python's
fixed-point float formatting applies to an exactly representable value. -/
def roundHalfEven (q : ℚ) : ℤ :=
  let f := ⌊q⌋
  let frac := q - f
  if frac < 1 / 2 then f
  else if 1 / 2 < frac then f + 1
  else if f % 2 = 0 then f else f + 1

/-- Character list of `f"{q:.{nd}f}"`: the value rounded half-to-even at
`nd` decimals, rendered with exactly `nd` fractional digits.  (A negative
value that rounds to zero is rendered without the sign; the script only
formats non-negative samples, so the difference is immaterial here.) -/
def fmtChars (q : ℚ) (nd : Nat) : List Char :=
  let scaled := roundHalfEven (q * 10 ^ nd)
  let s := scaled.natAbs
  let core :=
    if nd = 0 then natDigits s
    else natDigits (s / 10 ^ nd) ++ '.' :: padZeros nd (natDigits (s % 10 ^ nd))
  if scaled < 0 then '-' :: core else core

/-- Drop trailing Python whitespace, as `str.rstrip()` does. -/
def rstripChars (l : List Char) : List Char :=
  (l.reverse.dropWhile pyWS).reverse

/-- Embeds `fmt` of the script for a numeric argument:
`f"{n:.{nd}f} {unit}".rstrip()`.  (The `isinstance(n, str)` branch returns
its argument unchanged and is never taken by the script, which only calls
`fmt` on floats.) -/
def fmt (q : ℚ) (unit : String) (nd : Nat) : String :=
  String.mk (rstripChars (fmtChars q nd ++ ' ' :: unit.data))

/-- Python's two-argument `max(a, b)`: returns `b` when `a < b`, else `a`.
It agrees with the lattice `max` on `ℚ` (see `pyMax2_eq_max`) but reduces
in the kernel. -/
def pyMax2 (a b : ℚ) : ℚ :=
  if a < b then b else a

theorem pyMax2_eq_max (a b : ℚ) : pyMax2 a b = max a b := by
  simp only [pyMax2, max_def]
  rcases lt_trichotomy a b with h | h | h
  · rw [if_pos h, if_pos h.le]
  · subst h; simp
  · rw [if_neg (not_lt.mpr h.le), if_neg (not_le.mpr h)]

/-!  ## RAPL reader and Linux differencing backend  -/

/-- Environment seen by one `_rapl_joules_linux` call: whether
`/sys/class/powercap` exists, and for each globbed `intel-rapl:*` entry the
outcome of `int((pkg / "energy_uj").read_text())` — `none` when the read or
the parse raised (the `except Exception: continue` path). -/
structure RaplEnv where
  baseExists : Bool
  pkgReads : List (Option Int)
  deriving DecidableEq, Repr

/-- Sum of the successfully read counters, skipping failed entries, exactly
as the `total += ...` / `continue` loop accumulates them. -/
def raplTotal (reads : List (Option Int)) : Int :=
  reads.foldl (fun acc r => match r with | some v => acc + v | none => acc) 0

/-- Embeds `_rapl_joules_linux`: `None` when the base path is missing, and
`total or None` — the Python idiom mapping a zero total to `None`. -/
def raplJoulesLinux (env : RaplEnv) : Option Int :=
  if !env.baseExists then none
  else if raplTotal env.pkgReads = 0 then none
  else some (raplTotal env.pkgReads)

/-- Carried state of the `_linux` closure: `last_j` and `last_t`. -/
structure LinuxState where
  lastJ : Option Int
  lastT : ℚ
  deriving DecidableEq, Repr

/-- State captured by `make_watts_reader` on Linux before returning the
closure: an initial counter reading and the construction-time clock. -/
def linuxInit (env0 : RaplEnv) (t0 : ℚ) : LinuxState :=
  { lastJ := raplJoulesLinux env0, lastT := t0 }

/-- Embeds one call of the `_linux` closure.  `env` is the sysfs content
the call observes and `t` the value `time.time()` returns inside the call;
the result pairs the returned value with the closure state after the call.
The clock is assumed strictly increasing across calls (`t ≠ last_t`), which
the 0.8 s blocking CPU read between ticks guarantees, so the rational
division matches Python's. -/
def linuxBackend (st : LinuxState) (env : RaplEnv) (t : ℚ) :
    Option ℚ × LinuxState :=
  match raplJoulesLinux env, st.lastJ with
  | none, _ => (none, st)
  | some _, none => (none, st)
  | some j, some lj =>
      let w := pyMax2 ((j - lj : ℚ) / (t - st.lastT) / 1000000) 0
      (some w, { lastJ := some j, lastT := t })

example : raplJoulesLinux ⟨true, [some 1000000]⟩ = some 1000000 := by decide
example : raplJoulesLinux ⟨true, [some 3, none, some (-3)]⟩ = none := by decide
example :
    linuxBackend ⟨some 1000000, 0⟩ ⟨true, [some 2000000]⟩ 1
      = (some 1, ⟨some 2000000, 1⟩) := by
  norm_num [linuxBackend, raplJoulesLinux, raplTotal, pyMax2]
example :
    linuxBackend ⟨some 2000000, 0⟩ ⟨true, [some 1000000]⟩ 1
      = (some 0, ⟨some 1000000, 1⟩) := by
  norm_num [linuxBackend, raplJoulesLinux, raplTotal, pyMax2]

/-!  ## macOS powermetrics backend  -/

/-- True when `pat` is a prefix of `l`. -/
def prefixEq : List Char → List Char → Bool
  | [], _ => true
  | _ :: _, [] => false
  | a :: as, b :: bs => a = b && prefixEq as bs

/-- True when `pat` occurs contiguously inside `l` — Python's
`pat in line` substring test. -/
def containsSeq (pat : List Char) : List Char → Bool
  | [] => prefixEq pat []
  | c :: rest => prefixEq pat (c :: rest) || containsSeq pat rest

/-- ASCII lowercasing, as `str.lower()` applies to the parsed lines. -/
def asciiLower (c : Char) : Char :=
  if 'A' ≤ c && c ≤ 'Z' then Char.ofNat (c.toNat + 32) else c

/-- Strip leading and trailing whitespace, as `str.strip()`. -/
def stripChars (l : List Char) : List Char :=
  ((l.dropWhile pyWS).reverse.dropWhile pyWS).reverse

/-- Split on whitespace runs dropping empty fields, as `str.split()`. -/
def splitWSAux : List Char → List Char → List (List Char)
  | [], acc => if acc.isEmpty then [] else [acc.reverse]
  | c :: rest, acc =>
    if pyWS c then
      if acc.isEmpty then splitWSAux rest []
      else acc.reverse :: splitWSAux rest []
    else splitWSAux rest (c :: acc)

/-- Whitespace split of a character list. -/
def splitWS (l : List Char) : List (List Char) :=
  splitWSAux l []

/-- True for an ASCII decimal digit. -/
def isDigitCh (c : Char) : Bool :=
  '0' ≤ c && c ≤ '9'

/-- Numeric value of a digit list read in base 10. -/
def digitsToNat (ds : List Char) : Nat :=
  ds.foldl (fun a c => a * 10 + (c.toNat - 48)) 0

/-- Embeds Python's `float(token)` on the tokens the powermetrics text
parser feeds it: an optional sign, then digits with at most one decimal
point, at least one digit in total.  (Exponent and `inf`/`nan` forms,
which `float` also accepts, do not occur in powermetrics output and are
conservatively rejected.) -/
def parseFloatQ (l : List Char) : Option ℚ :=
  let signed : ℚ × List Char :=
    match l with
    | '-' :: r => (-1, r)
    | '+' :: r => (1, r)
    | r => (1, r)
  let ip := signed.2.takeWhile isDigitCh
  let rest2 := signed.2.dropWhile isDigitCh
  match rest2 with
  | [] => if ip.isEmpty then none else some (signed.1 * digitsToNat ip)
  | '.' :: rest3 =>
    let fp := rest3.takeWhile isDigitCh
    let rest4 := rest3.dropWhile isDigitCh
    if rest4.isEmpty && !(ip.isEmpty && fp.isEmpty) then
      some (signed.1 * ((digitsToNat ip : ℚ) + (digitsToNat fp : ℚ) / 10 ^ fp.length))
    else none
  | _ => none

/-- The four keywords whose presence in a lowercased line makes the text
parser try its tokens. -/
def powerKeywords : List (List Char) :=
  ["cpu power".data, "processor power".data, "package power".data, "pkg power".data]

/-- True when a stripped line passes the powermetrics text filter:
non-empty, contains a `W`, and mentions one of the power keywords. -/
def lineSelected (line : List Char) : Bool :=
  !line.isEmpty && containsSeq ['W'] line &&
    powerKeywords.any (fun k => containsSeq k (line.map asciiLower))

/-- First token that `float(token.replace("W", ""))` accepts, scanning the
tokens of a selected line left to right. -/
def firstFloatToken : List (List Char) → Option ℚ
  | [] => none
  | tok :: rest =>
    match parseFloatQ (tok.filter (fun c => c ≠ 'W')) with
    | some v => some v
    | none => firstFloatToken rest

/-- Embeds the plain-text parsing loop of `_powermetrics_watts_mac`: strip
each line, skip lines failing the filter, and inside a selected line return
the first token that parses as a float; a selected line with no parsable
token falls through to the following lines. -/
def parseTextWatts : List (List Char) → Option ℚ
  | [] => none
  | l :: rest =>
    let line := stripChars l
    if lineSelected line then
      match firstFloatToken (splitWS line) with
      | some v => some v
      | none => parseTextWatts rest
    else parseTextWatts rest

/-- Environment of one `_powermetrics_watts_mac` call.  Each `subprocess`
invocation of `powermetrics` together with the library decoding applied to
it is an external collaborator wrapped in `try`/`except`:
`jsonAttempt = some w` means the JSON invocation succeeded and
`float(data["smc"]["package_watts"])` produced `w`; `none` means some step
of that block raised (timeout, privilege error, missing JSON support, parse
failure) and was caught.  `textAttempt` likewise is the line list of the
plain-text invocation's output, or `none` when that call raised. -/
structure MacEnv where
  jsonAttempt : Option ℚ
  textAttempt : Option (List (List Char))

/-- Embeds `_powermetrics_watts_mac`: the JSON path first, then the
plain-text fallback, `none` when both fail. -/
def powermetricsWattsMac (env : MacEnv) : Option ℚ :=
  match env.jsonAttempt with
  | some w => some w
  | none =>
    match env.textAttempt with
    | none => none
    | some lines => parseTextWatts lines

example : parseFloatQ "3.12".data = some (312 / 100) := by
  simp +decide [parseFloatQ, digitsToNat]; norm_num
example : parseFloatQ "3120".data = some 3120 := by
  simp +decide [parseFloatQ, digitsToNat]
example : parseFloatQ "Power:".data = none := by decide
example : parseFloatQ "-5.0".data = some (-5) := by
  simp +decide [parseFloatQ, digitsToNat]
example :
    powermetricsWattsMac ⟨none, some ["CPU Power: 3120 mW".data]⟩ = some 3120 := by
  simp +decide [powermetricsWattsMac, parseTextWatts, firstFloatToken, parseFloatQ,
    digitsToNat, lineSelected, stripChars, splitWS, splitWSAux, containsSeq, prefixEq,
    powerKeywords, asciiLower]

/-!  ## Windows battery backend  -/

/-- Environment of one `_battery_watts_windows` call, the
`psutil.sensors_battery()` data: `raised` covers the `except Exception`
path, `present` is `bool(batt)`, `secsleftKnown` is false when `secsleft`
is `POWER_TIME_UNLIMITED` or `POWER_TIME_UNKNOWN`, and `energyFull` is the
optional `energy_full` field of the named tuple. -/
structure BattEnv where
  raised : Bool
  present : Bool
  powerPlugged : Bool
  secsleftKnown : Bool
  secsleft : Int
  percent : ℚ
  energyFull : Option ℚ

/-- Embeds `_battery_watts_windows`: `None` unless a present, unplugged
battery reports a known time-to-empty and an `energy_full` capacity, in
which case watts are estimated as
`capacity × (percent / 100) / (secsleft / 3600)`. -/
def batteryWattsWindows (env : BattEnv) : Option ℚ :=
  if env.raised then none
  else if !env.present || env.powerPlugged || !env.secsleftKnown then none
  else
    match env.energyFull with
    | none => none
    | some cap => some (cap * (env.percent / 100) / ((env.secsleft : ℚ) / 3600))

/-- The backend of an unknown platform: `lambda: None`. -/
def fallbackBackend : Option ℚ :=
  none

/-!  ## Sampler loop  -/

/-- What one tick of the `while running:` loop observes: the blocking CPU
percentage read, the RAM reading in MB, and what `get_watts()` returned. -/
structure TickInput where
  cpu : ℚ
  ram : ℚ
  watt : Option ℚ

/-- Series accumulated by the loop: `cpu_hist`, `ram_hist`, `w_hist`. -/
structure LoopState where
  cpuHist : List ℚ
  ramHist : List ℚ
  wHist : List ℚ

/-- The empty series the run starts from. -/
def initLoopState : LoopState :=
  { cpuHist := [], ramHist := [], wHist := [] }

/-- Embeds one iteration of the sampling loop: append the CPU and RAM
readings unconditionally, and the watt reading only when the backend
returned a value. -/
def tick (st : LoopState) (inp : TickInput) : LoopState :=
  { cpuHist := st.cpuHist ++ [inp.cpu]
    ramHist := st.ramHist ++ [inp.ram]
    wHist :=
      match inp.watt with
      | some w => st.wHist ++ [w]
      | none => st.wHist }

/-- Series after a run of finitely many completed ticks: the interrupt flag
is checked at the loop head, so a run interrupted after `N` completed ticks
executes exactly the `N` ticks of `inputs`. -/
def runLoop (inputs : List TickInput) : LoopState :=
  inputs.foldl tick initLoopState

/-!  ## Aggregation and report text  -/

/-- Embeds Python's `min(xs)` on a list: leftmost minimum of a non-empty
sequence, `ValueError` — the `error` branch — on an empty one. -/
def pyMin (xs : List ℚ) : Except Unit ℚ :=
  match xs with
  | [] => .error ()
  | x :: rest => .ok (rest.foldl min x)

/-- Embeds Python's `max(xs)` likewise. -/
def pyMax (xs : List ℚ) : Except Unit ℚ :=
  match xs with
  | [] => .error ()
  | x :: rest => .ok (rest.foldl max x)

/-- Embeds `statistics.mean(xs)`: the exact arithmetic mean (the library
computes it with exact `Fraction` arithmetic), `StatisticsError` on an
empty sequence. -/
def pyMean (xs : List ℚ) : Except Unit ℚ :=
  match xs with
  | [] => .error ()
  | _ :: _ => .ok (xs.sum / xs.length)

/-- Embeds `_stats`: `fmt(min(xs)), fmt(max(xs)), fmt(stats.mean(xs))`,
each formatted with `fmt`'s default unit `""` and default `nd = 1`.  An
empty argument propagates the exception `min` raises. -/
def pyStats (xs : List ℚ) : Except Unit (String × String × String) := do
  let mn ← pyMin xs
  let mx ← pyMax xs
  let me ← pyMean xs
  return (fmt mn "" 1, fmt mx "" 1, fmt me "" 1)

/-- Run metadata that reaches the summary besides the three series. -/
structure RunData where
  startTs : String
  endTs : String
  durationStr : String
  osLabel : String
  cpuHist : List ℚ
  ramHist : List ℚ
  wHist : List ℚ

/-- Embeds the summarisation tail of the script: `_stats` on the CPU and
RAM series, the `if w_hist:` guard replacing the watt statistics by the
three `"N/A"` markers when the Watts series is empty, and the `summary`
f-string assembled from them.  Timestamp and platform strings are opaque
run metadata. -/
def summaryText (rd : RunData) : Except Unit String := do
  let cpu ← pyStats rd.cpuHist
  let ram ← pyStats rd.ramHist
  let w ←
    if rd.wHist.isEmpty then Except.ok ("N/A", "N/A", "N/A")
    else pyStats rd.wHist
  return "Run started : " ++ rd.startTs ++
    "\nRun ended   : " ++ rd.endTs ++
    "\nDuration    : " ++ rd.durationStr ++ " s" ++
    "\nOS          : " ++ rd.osLabel ++
    "\n\nCPU usage % : min " ++ cpu.1 ++ " · max " ++ cpu.2.1 ++ " · avg " ++ cpu.2.2 ++
    "\nRAM used MB : min " ++ ram.1 ++ " · max " ++ ram.2.1 ++ " · avg " ++ ram.2.2 ++
    "\nWatts       : min " ++ w.1 ++ " · max " ++ w.2.1 ++ " · avg " ++ w.2.2 ++ "\n"

/-- Evaluation helper: once the rounding step of `fmtChars` is known, the
rest of the rendering is integer computation. -/
theorem fmtChars_of_round (q : ℚ) (nd : Nat) (k : ℤ)
    (h : roundHalfEven (q * 10 ^ nd) = k) :
    fmtChars q nd =
      (let core :=
        if nd = 0 then natDigits k.natAbs
        else natDigits (k.natAbs / 10 ^ nd) ++
          '.' :: padZeros nd (natDigits (k.natAbs % 10 ^ nd));
      if k < 0 then '-' :: core else core) := by
  simp only [fmtChars, h]

/-- Evaluation: `fmt(3.7)` renders as `"3.7"`. -/
theorem fmt_37_10 : fmt (37 / 10) "" 1 = "3.7" := by
  have h := fmtChars_of_round (37 / 10) 1 37 (by norm_num [roundHalfEven])
  simp only [fmt, h]
  decide

/-- Evaluation: `fmt(1.25)` renders as `"1.2"` — one decimal place, the
default `nd = 1`, with the tie at `12.5` broken to the even `12`. -/
theorem fmt_5_4 : fmt (5 / 4) "" 1 = "1.2" := by
  have h := fmtChars_of_round (5 / 4) 1 12 (by norm_num [roundHalfEven])
  simp only [fmt, h]
  decide

/-- On a non-empty series, `_stats` reduces to the three formatted
aggregates. -/
theorem pyStats_cons (x : ℚ) (rest : List ℚ) :
    pyStats (x :: rest)
      = Except.ok (fmt (rest.foldl min x) "" 1, fmt (rest.foldl max x) "" 1,
          fmt ((x :: rest).sum / ((x :: rest).length : ℚ)) "" 1) := rfl

/-!  ## Structural lemmas about the embedded helpers  -/

/-- Number of characters after the last decimal point of a string, `none`
when the string has no decimal point: the number of decimal places the
rendered value displays. -/
def decimalsShown (s : String) : Option Nat :=
  match s.data.reverse.span (fun c => c ≠ '.') with
  | (_, []) => none
  | (suf, _ :: _) => some suf.length

theorem digChar_isDigit (n : Nat) : isDigitCh (digChar n) = true := by
  have h : n % 10 < 10 := by omega
  unfold digChar
  generalize n % 10 = m at h ⊢
  interval_cases m <;> decide

theorem natDigitsAux_digits (fuel n : Nat) :
    ∀ c ∈ natDigitsAux fuel n, isDigitCh c = true := by
  induction fuel generalizing n with
  | zero => intro c hc; simp [natDigitsAux] at hc
  | succ fuel ih =>
    intro c hc
    rw [natDigitsAux] at hc
    by_cases h : n < 10
    · simp [h] at hc
      subst hc; exact digChar_isDigit n
    · simp [h] at hc
      rcases hc with hc | hc
      · exact ih _ _ hc
      · subst hc; exact digChar_isDigit _

theorem natDigits_digits (n : Nat) : ∀ c ∈ natDigits n, isDigitCh c = true :=
  natDigitsAux_digits (n + 1) n

theorem natDigits_lt_ten (n : Nat) (h : n < 10) : natDigits n = [digChar n] := by
  rw [natDigits, natDigitsAux, if_pos h]

theorem padZeros_one_single (c : Char) : padZeros 1 [c] = [c] := by
  simp [padZeros]

/-- Shape of `fmtChars` at one decimal: some leading characters that are
all numeric, then a decimal point, then exactly one digit. -/
theorem fmtChars_one_shape (q : ℚ) :
    ∃ pre d, fmtChars q 1 = pre ++ ['.', d] ∧ isDigitCh d = true ∧
      (∀ c ∈ pre, numericChar c = true) := by
  rw [fmtChars]
  set k := roundHalfEven (q * 10 ^ 1) with hk
  have hlt : k.natAbs % 10 ^ 1 < 10 := by
    have h10 : (10 : Nat) ^ 1 = 10 := by norm_num
    rw [h10]; omega
  have hdig : natDigits (k.natAbs % 10 ^ 1) = [digChar (k.natAbs % 10 ^ 1)] :=
    natDigits_lt_ten _ (by simpa using hlt)
  simp only [hdig, padZeros_one_single, if_neg (by norm_num : ¬(1 = 0))]
  by_cases hneg : k < 0
  · refine ⟨'-' :: natDigits (k.natAbs / 10 ^ 1), digChar (k.natAbs % 10 ^ 1), ?_, ?_, ?_⟩
    · simp [hneg]
    · exact digChar_isDigit _
    · intro c hc
      rcases List.mem_cons.mp hc with hc | hc
      · subst hc; decide
      · have := natDigits_digits _ _ hc
        simp [numericChar, isDigitCh] at this ⊢
        tauto
  · refine ⟨natDigits (k.natAbs / 10 ^ 1), digChar (k.natAbs % 10 ^ 1), ?_, ?_, ?_⟩
    · simp [hneg]
    · exact digChar_isDigit _
    · intro c hc
      have := natDigits_digits _ _ hc
      simp [numericChar, isDigitCh] at this ⊢
      tauto

theorem rstripChars_append_space_of_last (l : List Char) (c : Char)
    (hc : pyWS c = false) : rstripChars ((l ++ [c]) ++ [' ']) = l ++ [c] := by
  have hsp : pyWS ' ' = true := by decide
  simp [rstripChars, List.dropWhile_cons, hsp, hc]

theorem not_digit_of_pyWS (c : Char) (h : pyWS c = true) : isDigitCh c = false := by
  rw [pyWS] at h
  simp only [Bool.or_eq_true, decide_eq_true_eq] at h
  rcases h with ((((h | h) | h) | h) | h) | h <;> subst h <;> decide

theorem pyWS_eq_false_of_digit (c : Char) (h : isDigitCh c = true) :
    pyWS c = false := by
  cases hws : pyWS c
  · rfl
  · have hnd := not_digit_of_pyWS c hws
    rw [h] at hnd
    exact absurd hnd (by decide)

theorem digit_ne_dot (c : Char) (h : isDigitCh c = true) : c ≠ '.' := by
  intro hc
  subst hc
  revert h
  decide

/-- Dropping `fmt`'s trailing separator: with an empty unit, `fmt` renders
exactly the characters of `fmtChars`. -/
theorem fmt_data_eq (q : ℚ) : (fmt q "" 1).data = fmtChars q 1 := by
  obtain ⟨pre, d, hshape, hd, -⟩ := fmtChars_one_shape q
  have hdws : pyWS d = false := pyWS_eq_false_of_digit d hd
  have hsplit : fmtChars q 1 ++ ' ' :: ("" : String).data
      = ((pre ++ ['.']) ++ [d]) ++ [' '] := by
    simp [hshape]
  rw [fmt, hsplit, rstripChars_append_space_of_last _ _ hdws]
  simp [hshape]

theorem decimalsShown_of_dot_digit (s : String) (pre : List Char) (d : Char)
    (hs : s.data = pre ++ ['.', d]) (hd : d ≠ '.') : decimalsShown s = some 1 := by
  rw [decimalsShown, hs]
  simp [List.span_eq_take_drop, List.takeWhile_append, hd]

/-- Every value the script formats carries exactly one decimal place:
`fmt` is always called with its default `nd = 1`. -/
theorem fmt_decimalsShown (q : ℚ) : decimalsShown (fmt q "" 1) = some 1 := by
  obtain ⟨pre, d, hshape, hd, -⟩ := fmtChars_one_shape q
  refine decimalsShown_of_dot_digit _ pre d ?_ (digit_ne_dot d hd)
  rw [fmt_data_eq, hshape]

/-- The output of `fmt` on a value is a numeric string: non-empty and made
only of digits, the decimal point and a sign. -/
theorem fmt_isNumericStr (q : ℚ) : isNumericStr (fmt q "" 1) = true := by
  obtain ⟨pre, d, hshape, hd, hpre⟩ := fmtChars_one_shape q
  rw [isNumericStr, fmt_data_eq, hshape]
  simp only [Bool.and_eq_true, Bool.not_eq_true']
  constructor
  · simp
  · rw [List.all_eq_true]
    intro c hc
    simp only [List.mem_append, List.mem_cons] at hc
    rcases hc with hc | hc | hc | hc
    · exact hpre c hc
    · subst hc; decide
    · subst hc
      revert hd
      simp [isDigitCh, numericChar]
      tauto
    · simp at hc

/-!  ## Substring facts  -/

theorem prefixEq_self_append (p r : List Char) : prefixEq p (p ++ r) = true := by
  induction p with
  | nil => rfl
  | cons a as ih => simp [prefixEq, ih]

theorem containsSeq_append_left (p l : List Char) (a : List Char)
    (h : containsSeq p l = true) : containsSeq p (a ++ l) = true := by
  induction a with
  | nil => simpa using h
  | cons c cs ih => simp [containsSeq, ih, Bool.or_eq_true]

theorem containsSeq_of_decomp (p l a b : List Char) (h : l = a ++ (p ++ b)) :
    containsSeq p l = true := by
  subst h
  apply containsSeq_append_left
  cases p with
  | nil => cases b <;> simp [containsSeq, prefixEq]
  | cons c cs =>
    have hp := prefixEq_self_append (c :: cs) b
    simp [containsSeq]
    left
    exact hp

/-!  ## Order facts about folded minima, maxima and sums  -/

theorem foldl_min_le_init (l : List ℚ) (x : ℚ) : l.foldl min x ≤ x := by
  induction l generalizing x with
  | nil => simp
  | cons r rs ih => exact le_trans (ih (min x r)) (min_le_left x r)

theorem foldl_min_le_mem (l : List ℚ) (x y : ℚ) (hy : y ∈ l) :
    l.foldl min x ≤ y := by
  induction l generalizing x with
  | nil => simp at hy
  | cons r rs ih =>
    simp only [List.foldl_cons]
    rcases List.mem_cons.mp hy with h | h
    · subst h
      exact le_trans (foldl_min_le_init rs (min x y)) (min_le_right x y)
    · exact ih (min x r) h

theorem init_le_foldl_max (l : List ℚ) (x : ℚ) : x ≤ l.foldl max x := by
  induction l generalizing x with
  | nil => simp
  | cons r rs ih => exact le_trans (le_max_left x r) (ih (max x r))

theorem mem_le_foldl_max (l : List ℚ) (x y : ℚ) (hy : y ∈ l) :
    y ≤ l.foldl max x := by
  induction l generalizing x with
  | nil => simp at hy
  | cons r rs ih =>
    simp only [List.foldl_cons]
    rcases List.mem_cons.mp hy with h | h
    · subst h
      exact le_trans (le_max_right x y) (init_le_foldl_max rs (max x y))
    · exact ih (max x r) h

theorem len_mul_le_sum (l : List ℚ) (a : ℚ) (h : ∀ y ∈ l, a ≤ y) :
    (l.length : ℚ) * a ≤ l.sum := by
  induction l with
  | nil => simp
  | cons r rs ih =>
    have hr : a ≤ r := h r (List.mem_cons_self r rs)
    have hrs : (rs.length : ℚ) * a ≤ rs.sum :=
      ih (fun y hy => h y (List.mem_cons_of_mem r hy))
    simp only [List.sum_cons, List.length_cons]
    push_cast
    nlinarith

theorem sum_le_len_mul (l : List ℚ) (b : ℚ) (h : ∀ y ∈ l, y ≤ b) :
    l.sum ≤ (l.length : ℚ) * b := by
  induction l with
  | nil => simp
  | cons r rs ih =>
    have hr : r ≤ b := h r (List.mem_cons_self r rs)
    have hrs : rs.sum ≤ (rs.length : ℚ) * b :=
      ih (fun y hy => h y (List.mem_cons_of_mem r hy))
    simp only [List.sum_cons, List.length_cons]
    push_cast
    nlinarith

/-!  ## Loop-length facts  -/

theorem tick_cpu_length (st : LoopState) (i : TickInput) :
    (tick st i).cpuHist.length = st.cpuHist.length + 1 := by
  simp [tick]

theorem tick_ram_length (st : LoopState) (i : TickInput) :
    (tick st i).ramHist.length = st.ramHist.length + 1 := by
  simp [tick]

theorem tick_w_length_le (st : LoopState) (i : TickInput) :
    (tick st i).wHist.length ≤ st.wHist.length + 1 := by
  rcases i with ⟨cpu, ram, watt⟩
  cases watt <;> simp [tick]

theorem foldl_tick_lengths (inputs : List TickInput) (st : LoopState) :
    (inputs.foldl tick st).cpuHist.length = st.cpuHist.length + inputs.length ∧
    (inputs.foldl tick st).ramHist.length = st.ramHist.length + inputs.length ∧
    (inputs.foldl tick st).wHist.length ≤ st.wHist.length + inputs.length := by
  induction inputs generalizing st with
  | nil => simp
  | cons i is ih =>
    obtain ⟨h1, h2, h3⟩ := ih (tick st i)
    refine ⟨?_, ?_, ?_⟩
    · simp only [List.foldl_cons, h1, tick_cpu_length, List.length_cons]
      omega
    · simp only [List.foldl_cons, h2, tick_ram_length, List.length_cons]
      omega
    · have hw := tick_w_length_le st i
      simp only [List.foldl_cons, List.length_cons]
      omega

/-!  ## Claims  -/

/-- C1 (code behaviour at the claimed input): applied to an empty Sample
Series, the Aggregator `_stats` does not return the "not available"
sentinel — Python's `min([])` raises `ValueError`, which the embedding
records as the `error` outcome, so a run interrupted with zero collected
samples crashes during finalization instead of producing a report.  A
series of length 1 does behave as claimed: min = max = mean = that
value. -/
theorem claim_C1_stats_empty_raises :
    pyStats ([] : List ℚ) = Except.error () ∧
    pyStats [(37 : ℚ) / 10] = Except.ok ("3.7", "3.7", "3.7") := by
  constructor
  · rfl
  · have hms : pyStats [(37 : ℚ) / 10]
        = Except.ok (fmt (37 / 10) "" 1, fmt (37 / 10) "" 1, fmt (37 / 10) "" 1) := by
      rw [pyStats_cons]
      norm_num
    rw [hms, fmt_37_10]

/-- C2 (counterexample): the macOS backend does not guarantee a
non-negative watt value — fed a powermetrics output whose power line
carries a negative figure, the plain-text parser returns that negative
number unchanged. -/
theorem claim_C2_counterexample :
    powermetricsWattsMac ⟨none, some ["CPU Power: -5.0 W".data]⟩ = some (-5) ∧
    (-5 : ℚ) < 0 := by
  constructor
  · simp +decide [powermetricsWattsMac, parseTextWatts, firstFloatToken, parseFloatQ,
      digitsToNat, lineSelected, stripChars, splitWS, splitWSAux, containsSeq, prefixEq,
      powerKeywords, asciiLower]
  · norm_num

/-- C2 (amended): every backend converts its internal failures to
"unavailable" (each embedded backend is a total function into
`Option ℚ`), and the Linux backend's returned watt value is always
non-negative thanks to the `max(·, 0.0)` clamp; the macOS and Windows
backends return the externally reported figure without clamping. -/
theorem claim_C2_amended (st : LinuxState) (env : RaplEnv) (t : ℚ) (w : ℚ)
    (h : (linuxBackend st env t).1 = some w) : 0 ≤ w := by
  rw [linuxBackend] at h
  rcases henv : raplJoulesLinux env with _ | j <;> rw [henv] at h
  · simp at h
  · rcases hlj : st.lastJ with _ | lj <;> rw [hlj] at h
    · simp at h
    · simp only [Option.some.injEq] at h
      rw [pyMax2] at h
      split_ifs at h with hlt
      · linarith [h]
      · rw [← h]
        exact le_of_not_lt hlt

/-- C2 witness: a concrete Linux call that returns a value, whose
non-negativity follows from the amended theorem. -/
theorem claim_C2_witness :
    (linuxBackend ⟨some 1000000, 0⟩ ⟨true, [some 2000000]⟩ 1).1 = some 1 ∧
    (0 : ℚ) ≤ 1 := by
  have h : (linuxBackend ⟨some 1000000, 0⟩ ⟨true, [some 2000000]⟩ 1).1 = some 1 := by
    norm_num [linuxBackend, raplJoulesLinux, raplTotal, pyMax2]
  exact ⟨h, claim_C2_amended _ _ _ _ h⟩

/-- C3: with a recorded previous reading `lj` at time `lt` and a current
reading `j` at a later time `t`, the Linux backend returns exactly
`max(0, (j − lj) / (t − lt))` scaled from µJ to W; a decreasing or equal
pair yields exactly 0, and the result is never negative. -/
theorem claim_C3_linux_difference (lj j : ℤ) (lt t : ℚ) (env : RaplEnv)
    (hj : raplJoulesLinux env = some j) (ht : lt < t) :
    (linuxBackend ⟨some lj, lt⟩ env t).1
        = some (max 0 ((j - lj : ℚ) / (t - lt) / 1000000)) ∧
    (j ≤ lj → (linuxBackend ⟨some lj, lt⟩ env t).1 = some 0) ∧
    ∀ w, (linuxBackend ⟨some lj, lt⟩ env t).1 = some w → 0 ≤ w := by
  have hval : (linuxBackend ⟨some lj, lt⟩ env t).1
      = some (pyMax2 ((j - lj : ℚ) / (t - lt) / 1000000) 0) := by
    rw [linuxBackend, hj]
  refine ⟨?_, ?_, ?_⟩
  · rw [hval, pyMax2_eq_max, max_comm]
  · intro hle
    rw [hval]
    have hnum : (j - lj : ℚ) ≤ 0 := by
      have : (j : ℚ) ≤ (lj : ℚ) := by exact_mod_cast hle
      linarith
    have hden : (0 : ℚ) ≤ t - lt := by linarith
    have hq : (j - lj : ℚ) / (t - lt) / 1000000 ≤ 0 := by
      apply div_nonpos_iff.mpr
      refine Or.inr ⟨div_nonpos_iff.mpr (Or.inr ⟨hnum, hden⟩), by norm_num⟩
    rw [pyMax2]
    split_ifs with hlt
    · rfl
    · have : (j - lj : ℚ) / (t - lt) / 1000000 = 0 := le_antisymm hq (le_of_not_lt hlt)
      rw [this]
  · intro w hw
    rw [hval] at hw
    simp only [Option.some.injEq] at hw
    rw [pyMax2] at hw
    split_ifs at hw with hlt
    · linarith [hw]
    · rw [← hw]
      exact le_of_not_lt hlt

/-- C3 witness: the spec's concrete cases — 1,000,000 µJ at t = 0 s and
2,000,000 µJ at t = 1 s give exactly 1.0 W, and a decreasing pair gives
exactly 0. -/
theorem claim_C3_witness :
    (linuxBackend ⟨some 1000000, 0⟩ ⟨true, [some 2000000]⟩ 1).1 = some 1 ∧
    (linuxBackend ⟨some 2000000, 0⟩ ⟨true, [some 1000000]⟩ 1).1 = some 0 := by
  have h1 := claim_C3_linux_difference 1000000 2000000 0 1 ⟨true, [some 2000000]⟩
    (by decide) (by norm_num)
  have h2 := claim_C3_linux_difference 2000000 1000000 0 1 ⟨true, [some 1000000]⟩
    (by decide) (by norm_num)
  constructor
  · rw [h1.1]
    norm_num
  · exact h2.2.1 (by norm_num)

/-- C4 (counterexample): the very first call after selection does NOT
return "unavailable" when the counter is readable — `make_watts_reader`
takes an initial reading at selection time, and the first call differences
against it, here returning 1.0 W. -/
theorem claim_C4_counterexample :
    (linuxBackend (linuxInit ⟨true, [some 1000000]⟩ 0) ⟨true, [some 2000000]⟩ 1).1
        = some 1 ∧
    (some (1 : ℚ) ≠ (none : Option ℚ)) := by
  constructor
  · norm_num [linuxInit, linuxBackend, raplJoulesLinux, raplTotal, pyMax2]
  · simp

/-- C4 (amended): a first call after selection returns "unavailable"
exactly when the current counter reading is unavailable (missing or
unreadable path, or zero sum) or the initial reading taken at selection
time was; when both readings are available, the first call already
returns a watt value differenced against the selection-time reading. -/
theorem claim_C4_amended (env0 : RaplEnv) (t0 : ℚ) (env : RaplEnv) (t : ℚ) :
    (linuxBackend (linuxInit env0 t0) env t).1 = none ↔
      raplJoulesLinux env = none ∨ raplJoulesLinux env0 = none := by
  cases henv : raplJoulesLinux env <;> cases henv0 : raplJoulesLinux env0 <;>
    simp [linuxBackend, linuxInit, henv, henv0]

/-- C4 witness: with the counter directory absent both at selection time
and at the first call, the first call returns "unavailable". -/
theorem claim_C4_witness :
    (linuxBackend (linuxInit ⟨false, []⟩ 0) ⟨false, []⟩ 1).1 = none :=
  (claim_C4_amended ⟨false, []⟩ 0 ⟨false, []⟩ 1).mpr (Or.inl rfl)

/-- C5: after any run of `N` completed ticks the CPU and RAM series have
length exactly `N`, the Watts series has length at most `N`, and a further
tick only appends — it never rewrites the readings already recorded. -/
theorem claim_C5_series_lengths (inputs : List TickInput) :
    (runLoop inputs).cpuHist.length = inputs.length ∧
    (runLoop inputs).ramHist.length = inputs.length ∧
    (runLoop inputs).wHist.length ≤ inputs.length ∧
    ∀ i : TickInput,
      (runLoop (inputs ++ [i])).cpuHist = (runLoop inputs).cpuHist ++ [i.cpu] ∧
      (runLoop (inputs ++ [i])).ramHist = (runLoop inputs).ramHist ++ [i.ram] := by
  obtain ⟨h1, h2, h3⟩ := foldl_tick_lengths inputs initLoopState
  refine ⟨?_, ?_, ?_, ?_⟩
  · simpa [runLoop, initLoopState] using h1
  · simpa [runLoop, initLoopState] using h2
  · simpa [runLoop, initLoopState] using h3
  · intro i
    rw [runLoop, runLoop, List.foldl_append]
    exact ⟨rfl, rfl⟩

/-- C6: on every non-empty numeric series the Aggregator's minimum is at
most the mean, which is at most the maximum. -/
theorem claim_C6_min_le_mean_le_max (xs : List ℚ) (h : xs ≠ []) :
    ∃ mn mx me, pyMin xs = Except.ok mn ∧ pyMax xs = Except.ok mx ∧
      pyMean xs = Except.ok me ∧ mn ≤ me ∧ me ≤ mx := by
  rcases xs with _ | ⟨x, rest⟩
  · exact absurd rfl h
  refine ⟨rest.foldl min x, rest.foldl max x,
    (x :: rest).sum / ((x :: rest).length : ℚ), rfl, rfl, rfl, ?_, ?_⟩
  · have hmem : ∀ y ∈ x :: rest, rest.foldl min x ≤ y := by
      intro y hy
      rcases List.mem_cons.mp hy with hy | hy
      · subst hy; exact foldl_min_le_init rest y
      · exact foldl_min_le_mem rest x y hy
    have hsum := len_mul_le_sum (x :: rest) (rest.foldl min x) hmem
    have hlen : (0 : ℚ) < ((x :: rest).length : ℚ) := by
      simp only [List.length_cons]
      positivity
    rw [le_div_iff₀ hlen]
    linarith [hsum]
  · have hmem : ∀ y ∈ x :: rest, y ≤ rest.foldl max x := by
      intro y hy
      rcases List.mem_cons.mp hy with hy | hy
      · subst hy; exact init_le_foldl_max rest y
      · exact mem_le_foldl_max rest x y hy
    have hsum := sum_le_len_mul (x :: rest) (rest.foldl max x) hmem
    have hlen : (0 : ℚ) < ((x :: rest).length : ℚ) := by
      simp only [List.length_cons]
      positivity
    rw [div_le_iff₀ hlen]
    linarith [hsum]

/-- C6 witness: the property at the concrete series `[1, 3, 2]`. -/
theorem claim_C6_witness :
    ∃ mn mx me, pyMin [(1 : ℚ), 3, 2] = Except.ok mn ∧
      pyMax [(1 : ℚ), 3, 2] = Except.ok mx ∧
      pyMean [(1 : ℚ), 3, 2] = Except.ok me ∧ mn ≤ me ∧ me ≤ mx :=
  claim_C6_min_le_mean_le_max [1, 3, 2] (by simp)

/-- C7 (counterexample): the Watts fields are rendered with ONE decimal
place, not two — `_stats` calls `fmt` with its default `nd = 1` for every
metric, so the watts series `[1.25]` renders as `"1.2"`. -/
theorem claim_C7_counterexample :
    pyStats [(5 : ℚ) / 4] = Except.ok ("1.2", "1.2", "1.2") ∧
    decimalsShown "1.2" = some 1 ∧ decimalsShown "1.2" ≠ some 2 := by
  refine ⟨?_, by decide, by decide⟩
  have hms : pyStats [(5 : ℚ) / 4]
      = Except.ok (fmt (5 / 4) "" 1, fmt (5 / 4) "" 1, fmt (5 / 4) "" 1) := by
    rw [pyStats_cons]
    norm_num
  rw [hms, fmt_5_4]

/-- C7 (amended): each metric line shows min · max · avg with exactly ONE
decimal place for the CPU, the RAM and the Watts values alike — `fmt` is
always applied with its default `nd = 1`. -/
theorem claim_C7_amended (xs : List ℚ) (h : xs ≠ []) :
    ∃ a b c, pyStats xs = Except.ok (a, b, c) ∧
      decimalsShown a = some 1 ∧ decimalsShown b = some 1 ∧
      decimalsShown c = some 1 := by
  rcases xs with _ | ⟨x, rest⟩
  · exact absurd rfl h
  exact ⟨_, _, _, pyStats_cons x rest, fmt_decimalsShown _, fmt_decimalsShown _,
    fmt_decimalsShown _⟩

/-- C7 witness: the amended claim at the concrete series `[1.25]`. -/
theorem claim_C7_witness :
    ∃ a b c, pyStats [(5 : ℚ) / 4] = Except.ok (a, b, c) ∧
      decimalsShown a = some 1 ∧ decimalsShown b = some 1 ∧
      decimalsShown c = some 1 :=
  claim_C7_amended [(5 : ℚ) / 4] (by simp)

set_option maxRecDepth 8192 in
/-- C8: for every run with an empty Watts series and non-empty CPU and RAM
series the report is produced, the three `"N/A"` markers stand directly
after the Watts line's header, and the CPU and RAM lines carry the
formatted aggregates, which are numeric strings. -/
theorem claim_C8_na_watts (rd : RunData) (hw : rd.wHist = [])
    (hcne : rd.cpuHist ≠ []) (hrne : rd.ramHist ≠ []) :
    ∃ s c1 c2 c3 r1 r2 r3,
      summaryText rd = Except.ok s ∧
      pyStats rd.cpuHist = Except.ok (c1, c2, c3) ∧
      pyStats rd.ramHist = Except.ok (r1, r2, r3) ∧
      containsSeq "N/A".data s.data = true ∧
      (∃ pre suf, s = pre ++ "\nWatts       : min " ++ ("N/A" ++ suf)) ∧
      isNumericStr c1 = true ∧ isNumericStr c2 = true ∧ isNumericStr c3 = true ∧
      isNumericStr r1 = true ∧ isNumericStr r2 = true ∧ isNumericStr r3 = true ∧
      (∃ pre suf, s = pre ++ "\n\nCPU usage % : min " ++
        (c1 ++ (" · max " ++ (c2 ++ (" · avg " ++ (c3 ++ suf)))))) ∧
      (∃ pre suf, s = pre ++ "\nRAM used MB : min " ++
        (r1 ++ (" · max " ++ (r2 ++ (" · avg " ++ (r3 ++ suf)))))) := by
  obtain ⟨x, cr, hcx⟩ : ∃ x cr, rd.cpuHist = x :: cr := by
    rcases h : rd.cpuHist with _ | ⟨x, cr⟩
    · exact absurd h hcne
    · exact ⟨x, cr, rfl⟩
  obtain ⟨y, rr, hry⟩ : ∃ y rr, rd.ramHist = y :: rr := by
    rcases h : rd.ramHist with _ | ⟨y, rr⟩
    · exact absurd h hrne
    · exact ⟨y, rr, rfl⟩
  refine ⟨"Run started : " ++ rd.startTs ++ "\nRun ended   : " ++ rd.endTs ++
      "\nDuration    : " ++ rd.durationStr ++ " s" ++ "\nOS          : " ++ rd.osLabel ++
      "\n\nCPU usage % : min " ++ fmt (cr.foldl min x) "" 1 ++
      " · max " ++ fmt (cr.foldl max x) "" 1 ++
      " · avg " ++ fmt ((x :: cr).sum / ((x :: cr).length : ℚ)) "" 1 ++
      "\nRAM used MB : min " ++ fmt (rr.foldl min y) "" 1 ++
      " · max " ++ fmt (rr.foldl max y) "" 1 ++
      " · avg " ++ fmt ((y :: rr).sum / ((y :: rr).length : ℚ)) "" 1 ++
      "\nWatts       : min " ++ "N/A" ++ " · max " ++ "N/A" ++ " · avg " ++ "N/A" ++ "\n",
    fmt (cr.foldl min x) "" 1, fmt (cr.foldl max x) "" 1,
    fmt ((x :: cr).sum / ((x :: cr).length : ℚ)) "" 1,
    fmt (rr.foldl min y) "" 1, fmt (rr.foldl max y) "" 1,
    fmt ((y :: rr).sum / ((y :: rr).length : ℚ)) "" 1,
    ?_, ?_, ?_, ?_, ?_,
    fmt_isNumericStr _, fmt_isNumericStr _, fmt_isNumericStr _,
    fmt_isNumericStr _, fmt_isNumericStr _, fmt_isNumericStr _, ?_, ?_⟩
  · unfold summaryText
    rw [hcx, hry, hw]
    rfl
  · rw [hcx, pyStats_cons]
  · rw [hry, pyStats_cons]
  · apply containsSeq_of_decomp _ _
      (("Run started : " ++ rd.startTs ++ "\nRun ended   : " ++ rd.endTs ++
        "\nDuration    : " ++ rd.durationStr ++ " s" ++ "\nOS          : " ++ rd.osLabel ++
        "\n\nCPU usage % : min " ++ fmt (cr.foldl min x) "" 1 ++
        " · max " ++ fmt (cr.foldl max x) "" 1 ++
        " · avg " ++ fmt ((x :: cr).sum / ((x :: cr).length : ℚ)) "" 1 ++
        "\nRAM used MB : min " ++ fmt (rr.foldl min y) "" 1 ++
        " · max " ++ fmt (rr.foldl max y) "" 1 ++
        " · avg " ++ fmt ((y :: rr).sum / ((y :: rr).length : ℚ)) "" 1 ++
        "\nWatts       : min ").data)
      ((" · max " ++ ("N/A" : String) ++ " · avg " ++ "N/A" ++ "\n").data)
    simp [String.data_append, List.append_assoc]
  · refine ⟨"Run started : " ++ rd.startTs ++ "\nRun ended   : " ++ rd.endTs ++
      "\nDuration    : " ++ rd.durationStr ++ " s" ++ "\nOS          : " ++ rd.osLabel ++
      "\n\nCPU usage % : min " ++ fmt (cr.foldl min x) "" 1 ++
      " · max " ++ fmt (cr.foldl max x) "" 1 ++
      " · avg " ++ fmt ((x :: cr).sum / ((x :: cr).length : ℚ)) "" 1 ++
      "\nRAM used MB : min " ++ fmt (rr.foldl min y) "" 1 ++
      " · max " ++ fmt (rr.foldl max y) "" 1 ++
      " · avg " ++ fmt ((y :: rr).sum / ((y :: rr).length : ℚ)) "" 1,
      " · max " ++ "N/A" ++ " · avg " ++ "N/A" ++ "\n", ?_⟩
    simp [String.append_assoc]
  · refine ⟨"Run started : " ++ rd.startTs ++ "\nRun ended   : " ++ rd.endTs ++
      "\nDuration    : " ++ rd.durationStr ++ " s" ++ "\nOS          : " ++ rd.osLabel,
      "\nRAM used MB : min " ++ fmt (rr.foldl min y) "" 1 ++
      " · max " ++ fmt (rr.foldl max y) "" 1 ++
      " · avg " ++ fmt ((y :: rr).sum / ((y :: rr).length : ℚ)) "" 1 ++
      "\nWatts       : min " ++ "N/A" ++ " · max " ++ "N/A" ++ " · avg " ++ "N/A" ++ "\n", ?_⟩
    simp [String.append_assoc]
  · refine ⟨"Run started : " ++ rd.startTs ++ "\nRun ended   : " ++ rd.endTs ++
      "\nDuration    : " ++ rd.durationStr ++ " s" ++ "\nOS          : " ++ rd.osLabel ++
      "\n\nCPU usage % : min " ++ fmt (cr.foldl min x) "" 1 ++
      " · max " ++ fmt (cr.foldl max x) "" 1 ++
      " · avg " ++ fmt ((x :: cr).sum / ((x :: cr).length : ℚ)) "" 1,
      "\nWatts       : min " ++ "N/A" ++ " · max " ++ "N/A" ++ " · avg " ++ "N/A" ++ "\n", ?_⟩
    simp [String.append_assoc]

/-- C8 witness: the decomposition at a concrete one-tick run with an empty
Watts series. -/
theorem claim_C8_witness :
    ∃ s c1 c2 c3 r1 r2 r3,
      summaryText ⟨"S", "E", "1", "L", [(37 : ℚ) / 10], [(5 : ℚ) / 4], []⟩
          = Except.ok s ∧
      pyStats [(37 : ℚ) / 10] = Except.ok (c1, c2, c3) ∧
      pyStats [(5 : ℚ) / 4] = Except.ok (r1, r2, r3) ∧
      containsSeq "N/A".data s.data = true ∧
      (∃ pre suf, s = pre ++ "\nWatts       : min " ++ ("N/A" ++ suf)) ∧
      isNumericStr c1 = true ∧ isNumericStr c2 = true ∧ isNumericStr c3 = true ∧
      isNumericStr r1 = true ∧ isNumericStr r2 = true ∧ isNumericStr r3 = true ∧
      (∃ pre suf, s = pre ++ "\n\nCPU usage % : min " ++
        (c1 ++ (" · max " ++ (c2 ++ (" · avg " ++ (c3 ++ suf)))))) ∧
      (∃ pre suf, s = pre ++ "\nRAM used MB : min " ++
        (r1 ++ (" · max " ++ (r2 ++ (" · avg " ++ (r3 ++ suf)))))) :=
  claim_C8_na_watts ⟨"S", "E", "1", "L", [(37 : ℚ) / 10], [(5 : ℚ) / 4], []⟩
    rfl (by simp) (by simp)

/-- C9: a Linux-backend call that returns "unavailable" leaves the carried
state (`last_j`, `last_t`) untouched; a call that returns a watt value
replaces it with the current reading and the current clock. -/
theorem claim_C9_state_frame (st : LinuxState) (env : RaplEnv) (t : ℚ) :
    ((linuxBackend st env t).1 = none → (linuxBackend st env t).2 = st) ∧
    (∀ w, (linuxBackend st env t).1 = some w →
      (linuxBackend st env t).2 = ⟨raplJoulesLinux env, t⟩) := by
  cases henv : raplJoulesLinux env <;> rcases hlj : st.lastJ with _ | lj <;>
    constructor <;> simp [linuxBackend, henv, hlj]

/-- C9 witness: a failed read leaves the concrete state `⟨some 5, 0⟩`
unchanged. -/
theorem claim_C9_witness :
    (linuxBackend ⟨some 5, 0⟩ ⟨false, []⟩ 3).2 = ⟨some 5, 0⟩ :=
  (claim_C9_state_frame ⟨some 5, 0⟩ ⟨false, []⟩ 3).1 rfl

/-- C10: a summed counter total of exactly 0 makes the reader return
"unavailable" (`total or None`), and consequently the backend records no
watt sample on such a tick. -/
theorem claim_C10_zero_total_unavailable (env : RaplEnv)
    (h : raplTotal env.pkgReads = 0) :
    raplJoulesLinux env = none ∧
    ∀ st t, (linuxBackend st env t).1 = none := by
  have hnone : raplJoulesLinux env = none := by
    rw [raplJoulesLinux]
    cases env.baseExists <;> simp [h]
  refine ⟨hnone, fun st t => ?_⟩
  rw [linuxBackend, hnone]

/-- C10 witness: one genuinely all-zero counter entry yields no reading
and no watt sample. -/
theorem claim_C10_witness :
    raplJoulesLinux ⟨true, [some 0]⟩ = none ∧
    (linuxBackend ⟨some 5, 0⟩ ⟨true, [some 0]⟩ 1).1 = none := by
  have h := claim_C10_zero_total_unavailable ⟨true, [some 0]⟩ (by decide)
  exact ⟨h.1, h.2 ⟨some 5, 0⟩ 1⟩
